import Mathlib

/-!
Verification of the utility layer of the business-intelligence analyzer
(`src/utils.py`, `src/app.py`): input classification, Italian VAT-number
(partita IVA) checksum validation, rate limiting, TTL caching and the
retry helper, together with the orchestration order of `src/app.py`.

Strings are modelled as Lean `String`/`List Char`; the regex character
classes `[a-zA-Z0-9]`, `[a-zA-Z]`, `\d` and `\w` are modelled over ASCII
(`Char.isAlphanum`, `Char.isAlpha`, `Char.isDigit`), matching the ASCII
inputs the program handles.  Wall-clock instants are modelled as integer
timestamps passed explicitly where the Python code calls
`datetime.now()`.
-/

/-! ### InputProcessor (`src/utils.py`, lines 19-74) -/

/-- Python `str.strip()`: drop whitespace from both ends. -/
def pyStrip (s : String) : String :=
  ⟨((s.data.dropWhile Char.isWhitespace).reverse.dropWhile Char.isWhitespace).reverse⟩

/-- `user_input.startswith(('http://', 'https://'))`. -/
def startsWithHttp (cs : List Char) : Bool :=
  "http://".data.isPrefixOf cs || "https://".data.isPrefixOf cs

/-- Regex word character (`\w` ASCII): letter, digit or underscore; used for
the `\b` word-boundary semantics. -/
def isWordChar (c : Char) : Bool :=
  c.isAlphanum || c == '_'

/-- Semantics of `re.search(r'\b\d{11}\b', input)` as a Boolean: some run of
exactly 11 digits occurs with a word boundary on each side. -/
def hasPivaMatch (cs : List Char) : Bool :=
  (List.range (cs.length + 1)).any fun i =>
    ((cs.drop i).take 11).length == 11 &&
    ((cs.drop i).take 11).all Char.isDigit &&
    (i == 0 || !isWordChar (cs.getD (i - 1) ' ')) &&
    (i + 11 == cs.length || !isWordChar (cs.getD (i + 11) ' '))

/-- The label part `[a-zA-Z0-9][a-zA-Z0-9-]{1,61}[a-zA-Z0-9]` of the domain
regex: 3 to 63 characters, alphanumeric at both ends, alphanumeric or
hyphen in between. -/
def labelOk (l : List Char) : Bool :=
  3 ≤ l.length && l.length ≤ 63 &&
  (l.getD 0 ' ').isAlphanum && (l.getD (l.length - 1) ' ').isAlphanum &&
  ((l.drop 1).take (l.length - 2)).all (fun c => c.isAlphanum || c == '-')

/-- The TLD part `[a-zA-Z]{2,}` of the domain regex. -/
def tldOk (l : List Char) : Bool :=
  2 ≤ l.length && l.all Char.isAlpha

/-- Semantics of
`re.match(r'^[a-zA-Z0-9][a-zA-Z0-9-]{1,61}[a-zA-Z0-9]\.[a-zA-Z]{2,}$', input)`:
the whole string is a label, a dot, and a TLD (the input has already been
stripped, so `$` is an end anchor). -/
def domainFullMatch (cs : List Char) : Bool :=
  (List.range cs.length).any fun j =>
    cs.getD j ' ' == '.' && labelOk (cs.take j) && tldOk (cs.drop (j + 1))

/-- Semantics of
`re.search(r'\b([a-zA-Z0-9][a-zA-Z0-9-]{1,61}[a-zA-Z0-9]\.[a-zA-Z]{2,})\b', input)`
as a Boolean: some substring `cs[i..j) "." cs[j+1..k)` is a label-dot-TLD
with word boundaries at `i` and `k`. -/
def hasDomainInText (cs : List Char) : Bool :=
  (List.range (cs.length + 1)).any fun i =>
    (List.range (cs.length + 1)).any fun j =>
      (List.range (cs.length + 1)).any fun k =>
        i < j && j < k && k ≤ cs.length &&
        cs.getD j ' ' == '.' &&
        labelOk ((cs.drop i).take (j - i)) &&
        tldOk ((cs.drop (j + 1)).take (k - j - 1)) &&
        (i == 0 || !isWordChar (cs.getD (i - 1) ' ')) &&
        (k == cs.length || !isWordChar (cs.getD k ' '))

/-- The classification outcome of `InputProcessor.identify_input_type`: the
`input_type` and `confidence` fields of the returned dict.  The
`original_input` and `extracted_data` payload fields carry no logic of
their own and are not needed by any claim, so they are not modelled. -/
structure InputTypeResult where
  input_type : String
  confidence : ℚ
deriving DecidableEq, Repr

/-- `InputProcessor.identify_input_type` (`src/utils.py`, lines 19-74): strip
the input, then try URL prefix, 11-digit partita IVA, whole-string domain,
domain-inside-text, and finally default to a company name. -/
def identify_input_type (user_input : String) : InputTypeResult :=
  let t := (pyStrip user_input).data
  if startsWithHttp t then ⟨"url", 1⟩
  else if hasPivaMatch t then ⟨"partita_iva", 9/10⟩
  else if domainFullMatch t then ⟨"domain", 8/10⟩
  else if hasDomainInText t then ⟨"company_with_domain", 7/10⟩
  else ⟨"company_name", 5/10⟩

/-! ### DataValidator.validate_partita_iva (`src/utils.py`, lines 342-367) -/

/-- `re.sub(r'[^\d]', '', piva)` followed by per-character `int(...)`: the
decimal values of the digit characters of `s`, in order. -/
def pivaDigits (s : String) : List Nat :=
  (s.data.filter Char.isDigit).map (fun c => c.toNat - 48)

/-- `DataValidator.validate_partita_iva` (`src/utils.py`, lines 342-367).
`range(0, 10, 2)` and `range(1, 10, 2)` are written as the index lists
`[0,2,4,6,8]` and `[1,3,5,7,9]`.  The `try/except` around the arithmetic
can never fire (every character kept by the filter is a digit and every
index is in range), so the model is the arithmetic itself. -/
def validate_partita_iva (s : String) : Bool :=
  let piva := pivaDigits s
  if piva.length = 11 then
    let odd_sum := ([0, 2, 4, 6, 8].map fun i => piva.getD i 0).sum
    let even_sum := ([1, 3, 5, 7, 9].map fun i =>
      let digit := 2 * piva.getD i 0
      if digit < 10 then digit else digit - 9).sum
    let total := odd_sum + even_sum
    let check_digit := (10 - total % 10) % 10
    piva.getD 10 0 == check_digit
  else false

/-! Claim-side formulation of the checksum (the spec's words): `S_odd` is
the sum of the digits at 1-based odd positions (indices 0,2,4,6,8),
`S_even` sums twice each digit at indices 1,3,5,7,9, reduced by 9 when the
doubled value is 10 or more. -/

/-- The spec's `S_odd`. -/
def specOddSum (ds : List Nat) : Nat :=
  ds.getD 0 0 + ds.getD 2 0 + ds.getD 4 0 + ds.getD 6 0 + ds.getD 8 0

/-- One term of the spec's `S_even`: twice the digit, reduced by 9 when the
doubled value is 10 or more. -/
def specEvenTerm (d : Nat) : Nat :=
  if 10 ≤ 2 * d then 2 * d - 9 else 2 * d

/-- The spec's `S_even`. -/
def specEvenSum (ds : List Nat) : Nat :=
  specEvenTerm (ds.getD 1 0) + specEvenTerm (ds.getD 3 0) +
  specEvenTerm (ds.getD 5 0) + specEvenTerm (ds.getD 7 0) +
  specEvenTerm (ds.getD 9 0)

/-- The spec's check digit `(10 - ((S_odd + S_even) mod 10)) mod 10`. -/
def specCheckDigit (ds : List Nat) : Nat :=
  (10 - (specOddSum ds + specEvenSum ds) % 10) % 10

theorem evenTerm_rw (d : Nat) :
    (if 2 * d < 10 then 2 * d else 2 * d - 9) = specEvenTerm d := by
  unfold specEvenTerm
  split_ifs <;> omega

/-- C1: `validate_partita_iva` strips non-digits and accepts exactly the
11-digit strings whose last digit is the odd/even-sum check digit. -/
theorem validate_partita_iva_checksum (s : String) :
    validate_partita_iva s = true ↔
      ((pivaDigits s).length = 11 ∧
        (pivaDigits s).getD 10 0 = specCheckDigit (pivaDigits s)) := by
  unfold validate_partita_iva specCheckDigit specOddSum specEvenSum
  by_cases h : (pivaDigits s).length = 11
  · simp only [h, if_pos, List.map_cons, List.map_nil, List.sum_cons, List.sum_nil,
      beq_iff_eq, evenTerm_rw]
    constructor
    · intro hc
      exact ⟨trivial, by omega⟩
    · rintro ⟨-, hc⟩
      omega
  · simp [h]

/-- C2: `identify_input_type` tries its patterns in a fixed priority order
and returns at the first match: URL prefix (confidence 1.0), then 11-digit
partita IVA (0.9), then whole-string domain (0.8), then domain inside free
text (0.7), else company name (0.5); a later pattern never determines the
result when an earlier one matches. -/
theorem identify_input_type_priority (s : String) :
    (startsWithHttp (pyStrip s).data = true →
      identify_input_type s = ⟨"url", 1⟩) ∧
    (startsWithHttp (pyStrip s).data = false →
      hasPivaMatch (pyStrip s).data = true →
      identify_input_type s = ⟨"partita_iva", 9/10⟩) ∧
    (startsWithHttp (pyStrip s).data = false →
      hasPivaMatch (pyStrip s).data = false →
      domainFullMatch (pyStrip s).data = true →
      identify_input_type s = ⟨"domain", 8/10⟩) ∧
    (startsWithHttp (pyStrip s).data = false →
      hasPivaMatch (pyStrip s).data = false →
      domainFullMatch (pyStrip s).data = false →
      hasDomainInText (pyStrip s).data = true →
      identify_input_type s = ⟨"company_with_domain", 7/10⟩) ∧
    (startsWithHttp (pyStrip s).data = false →
      hasPivaMatch (pyStrip s).data = false →
      domainFullMatch (pyStrip s).data = false →
      hasDomainInText (pyStrip s).data = false →
      identify_input_type s = ⟨"company_name", 5/10⟩) := by
  unfold identify_input_type
  refine ⟨?_, ?_, ?_, ?_, ?_⟩ <;> intros <;> simp_all

/-- Witness for C2 at a concrete input: the URL branch fires on
`"https://example.com"`. -/
theorem identify_input_type_priority_witness :
    startsWithHttp (pyStrip "https://example.com").data = true ∧
    identify_input_type "https://example.com" = ⟨"url", 1⟩ :=
  ⟨by decide, (identify_input_type_priority "https://example.com").1 (by decide)⟩

/-- C5 (amended): every input is classified as one of exactly FIVE types:
url, partita_iva, domain, company_with_domain, or company_name. -/
theorem identify_input_type_five_types (s : String) :
    (identify_input_type s).input_type ∈
      ["url", "partita_iva", "domain", "company_with_domain", "company_name"] := by
  unfold identify_input_type
  dsimp only
  split_ifs <;> simp

/-- Counterexample to C5 as stated: on `"Acme acme.com"` the classifier
returns the fifth type `company_with_domain`, which is none of the four
types the claim allows. -/
theorem identify_input_type_not_four_types :
    (identify_input_type "Acme acme.com").input_type = "company_with_domain" ∧
    "company_with_domain" ∉ (["url", "partita_iva", "domain", "company_name"] : List String) :=
  ⟨by decide, by decide⟩

/-! ### RateLimiter (`src/utils.py`, lines 244-291)

The mutable state is the per-API call counters together with
`self.last_reset`.  The `limit` and `window` entries of `self.rate_limits`
are never written after `__init__`, so they are modelled as the fixed map
`rateLimit` (and the constant window 60). -/

/-- The per-API call counters and the `last_reset` timestamp. -/
structure RateLimiterState where
  calls : String → Nat
  lastReset : Int

/-- The configured `limit` of each API in `self.rate_limits`; `none` for an
API that is not configured. -/
def rateLimit (api_name : String) : Option Nat :=
  if api_name = "semrush" then some 10
  else if api_name = "serper" then some 100
  else if api_name = "openai" then some 50
  else none

/-- `RateLimiter.__init__`: all counters 0, `last_reset = datetime.now()`. -/
def RateLimiter.init (now : Int) : RateLimiterState :=
  { calls := fun _ => 0, lastReset := now }

/-- `RateLimiter._reset_counters_if_needed`: when 60 or more seconds have
elapsed since `last_reset`, zero the counters of the configured APIs and
set `last_reset` to now. -/
def reset_counters_if_needed (st : RateLimiterState) (now : Int) : RateLimiterState :=
  if 60 ≤ now - st.lastReset then
    { calls := fun a => if (rateLimit a).isSome then 0 else st.calls a, lastReset := now }
  else st

/-- `RateLimiter.can_make_call`: reset counters if the window elapsed, then
allow unconfigured APIs unconditionally and configured APIs while their
counter is strictly below the limit.  Returns the answer together with the
(possibly reset) state. -/
def can_make_call (st : RateLimiterState) (api_name : String) (now : Int) :
    Bool × RateLimiterState :=
  let st' := reset_counters_if_needed st now
  match rateLimit api_name with
  | none => (true, st')
  | some lim => (decide (st'.calls api_name < lim), st')

/-- `RateLimiter.record_call`: bump the counter of a configured API; do
nothing for an unconfigured one. -/
def record_call (st : RateLimiterState) (api_name : String) : RateLimiterState :=
  if (rateLimit api_name).isSome then
    { st with calls := fun a => if a = api_name then st.calls a + 1 else st.calls a }
  else st

/-- `RateLimiter.get_wait_time`: 0 when a call is allowed, otherwise the
remainder of the 60-second window (clamped at 0). -/
def get_wait_time (st : RateLimiterState) (api_name : String) (now : Int) :
    Int × RateLimiterState :=
  let r := can_make_call st api_name now
  if r.1 then (0, r.2)
  else
    match rateLimit api_name with
    | some _ => (max 0 (60 - (now - r.2.lastReset)), r.2)
    | none => (0, r.2)

/-- C3: `RateLimiter` is a fixed-window limiter: the reset step zeroes every
configured counter and restarts the window exactly when 60 or more seconds
have elapsed since the last reset, and after it `can_make_call` answers
true iff the counter in the current window is strictly below the limit
(10 for semrush, 100 for serper, 50 for openai). -/
theorem rateLimiter_fixed_window (st : RateLimiterState) (api : String) (now : Int) :
    (60 ≤ now - st.lastReset →
      reset_counters_if_needed st now =
        { calls := fun a => if (rateLimit a).isSome then 0 else st.calls a,
          lastReset := now }) ∧
    (now - st.lastReset < 60 → reset_counters_if_needed st now = st) ∧
    (∀ lim, rateLimit api = some lim →
      ((can_make_call st api now).1 = true ↔
        (reset_counters_if_needed st now).calls api < lim)) ∧
    rateLimit "semrush" = some 10 ∧ rateLimit "serper" = some 100 ∧
    rateLimit "openai" = some 50 := by
  refine ⟨?_, ?_, ?_, rfl, rfl, rfl⟩
  · intro h
    rw [reset_counters_if_needed, if_pos h]
  · intro h
    rw [reset_counters_if_needed, if_neg (by omega)]
  · intro lim hlim
    simp [can_make_call, hlim]

/-- Witness for C3: from the initial state at time 0, at time 100 the window
has elapsed, the reset zeroes the counters, and semrush (limit 10) may
call. -/
theorem rateLimiter_fixed_window_witness :
    ((60 : Int) ≤ 100 - (RateLimiter.init 0).lastReset ∧
      reset_counters_if_needed (RateLimiter.init 0) 100 =
        { calls := fun a => if (rateLimit a).isSome then 0
                            else (RateLimiter.init 0).calls a,
          lastReset := 100 }) ∧
    (rateLimit "semrush" = some 10 ∧
      ((can_make_call (RateLimiter.init 0) "semrush" 100).1 = true ↔
        (reset_counters_if_needed (RateLimiter.init 0) 100).calls "semrush" < 10)) :=
  ⟨⟨by decide, (rateLimiter_fixed_window (RateLimiter.init 0) "semrush" 100).1 (by decide)⟩,
   ⟨rfl, (rateLimiter_fixed_window (RateLimiter.init 0) "semrush" 100).2.2.1 10 rfl⟩⟩

/-- C9: an unconfigured API name is always allowed, recording it changes
nothing, its wait time is 0; recording a configured API touches only that
API's counter. -/
theorem rateLimiter_frame (st : RateLimiterState) (api : String) (now : Int) :
    (api ≠ "semrush" → api ≠ "serper" → api ≠ "openai" →
      (can_make_call st api now).1 = true ∧
      record_call st api = st ∧
      (get_wait_time st api now).1 = 0) ∧
    (∀ lim, rateLimit api = some lim →
      (record_call st api).lastReset = st.lastReset ∧
      (record_call st api).calls api = st.calls api + 1 ∧
      ∀ other, other ≠ api → (record_call st api).calls other = st.calls other) := by
  constructor
  · intro h1 h2 h3
    have hnone : rateLimit api = none := by
      simp [rateLimit, h1, h2, h3]
    refine ⟨?_, ?_, ?_⟩
    · simp [can_make_call, hnone]
    · simp [record_call, hnone]
    · simp [get_wait_time, can_make_call, hnone]
  · intro lim hlim
    have hsome : (rateLimit api).isSome = true := by simp [hlim]
    refine ⟨?_, ?_, ?_⟩
    · simp [record_call, hsome]
    · simp [record_call, hsome]
    · intro other hne
      simp [record_call, hsome, hne]

/-- Witness for C9: the unconfigured name `"foo"` is allowed and inert, and
recording `"semrush"` bumps only the semrush counter. -/
theorem rateLimiter_frame_witness :
    ((can_make_call (RateLimiter.init 0) "foo" 5).1 = true ∧
      record_call (RateLimiter.init 0) "foo" = RateLimiter.init 0 ∧
      (get_wait_time (RateLimiter.init 0) "foo" 5).1 = 0) ∧
    ((record_call (RateLimiter.init 0) "semrush").lastReset =
        (RateLimiter.init 0).lastReset ∧
      (record_call (RateLimiter.init 0) "semrush").calls "semrush" =
        (RateLimiter.init 0).calls "semrush" + 1 ∧
      ∀ other, other ≠ "semrush" →
        (record_call (RateLimiter.init 0) "semrush").calls other =
          (RateLimiter.init 0).calls other) :=
  ⟨(rateLimiter_frame (RateLimiter.init 0) "foo" 5).1
      (by decide) (by decide) (by decide),
   (rateLimiter_frame (RateLimiter.init 0) "semrush" 5).2 10 rfl⟩

/-! ### CacheManager (`src/utils.py`, lines 293-337)

`self.cache` maps a key to a `(data, timestamp)` pair; it is modelled as an
association list (first match wins, `set` replaces).  `cache_duration` is
the TTL; it and the timestamps are in the same abstract integer time unit
(`timedelta(hours=24)` is 86400 of them in seconds). -/

/-- The cache dictionary and the configured TTL. -/
structure CacheState (α : Type) where
  cache : List (String × α × Int)
  cache_duration : Int

/-- `CacheManager.__init__(cache_duration_hours=24)` with seconds as the
time unit: an empty cache with a TTL of `hours` hours. -/
def CacheManager.init (α : Type) (hours : Int := 24) : CacheState α :=
  { cache := [], cache_duration := hours * 3600 }

/-- `CacheManager.get`: on a present, unexpired entry return its data; on an
expired entry delete it and return `None`; on a missing key return `None`. -/
def CacheManager.get {α : Type} (c : CacheState α) (cache_key : String) (now : Int) :
    Option α × CacheState α :=
  match c.cache.find? (fun e => e.1 == cache_key) with
  | some (_, data, ts) =>
    if now - ts < c.cache_duration then (some data, c)
    else (none, { c with cache := c.cache.filter (fun e => e.1 != cache_key) })
  | none => (none, c)

/-- `CacheManager.set`: store `(data, now)` under the key, replacing any
previous entry. -/
def CacheManager.set {α : Type} (c : CacheState α) (cache_key : String) (data : α)
    (now : Int) : CacheState α :=
  { c with cache := (cache_key, data, now) :: c.cache.filter (fun e => e.1 != cache_key) }

theorem cache_get_miss {α : Type} (c : CacheState α) (key : String) (now : Int)
    (h : c.cache.find? (fun e => e.1 == key) = none) :
    CacheManager.get c key now = (none, c) := by
  simp [CacheManager.get, h]

theorem cache_get_hit {α : Type} (c : CacheState α) (key : String) (now : Int)
    (k : String) (v : α) (ts : Int)
    (h : c.cache.find? (fun e => e.1 == key) = some (k, v, ts))
    (hfresh : now - ts < c.cache_duration) :
    CacheManager.get c key now = (some v, c) := by
  simp [CacheManager.get, h, hfresh]

theorem cache_get_expired {α : Type} (c : CacheState α) (key : String) (now : Int)
    (k : String) (v : α) (ts : Int)
    (h : c.cache.find? (fun e => e.1 == key) = some (k, v, ts))
    (hold : c.cache_duration ≤ now - ts) :
    CacheManager.get c key now =
      (none, { c with cache := c.cache.filter (fun e => e.1 != key) }) := by
  have hnot : ¬ (now - ts < c.cache_duration) := by omega
  simp [CacheManager.get, h, hnot]

/-- C4: `CacheManager.get` performs lazy expiry on read: a stored entry
younger than the TTL is returned, an entry at least as old as the TTL is
deleted and `None` is returned, and a missing key yields `None`; `get` is a
total function, so no case raises. -/
theorem cacheManager_lazy_expiry {α : Type} (c : CacheState α) (key : String) (now : Int) :
    (c.cache.find? (fun e => e.1 == key) = none →
      CacheManager.get c key now = (none, c)) ∧
    (∀ k v ts, c.cache.find? (fun e => e.1 == key) = some (k, v, ts) →
      now - ts < c.cache_duration →
      CacheManager.get c key now = (some v, c)) ∧
    (∀ k v ts, c.cache.find? (fun e => e.1 == key) = some (k, v, ts) →
      c.cache_duration ≤ now - ts →
      CacheManager.get c key now =
        (none, { c with cache := c.cache.filter (fun e => e.1 != key) })) :=
  ⟨fun h => cache_get_miss c key now h,
   fun k v ts h hfresh => cache_get_hit c key now k v ts h hfresh,
   fun k v ts h hold => cache_get_expired c key now k v ts h hold⟩

/-- Witness for C4 at concrete states: a fresh entry is returned, an expired
entry is deleted, a missing key misses. -/
theorem cacheManager_lazy_expiry_witness :
    ((⟨[("k", 5, 0)], 86400⟩ : CacheState Nat).cache.find?
        (fun e => e.1 == "k") = some ("k", 5, 0) ∧
      CacheManager.get (⟨[("k", 5, 0)], 86400⟩ : CacheState Nat) "k" 10 =
        (some 5, ⟨[("k", 5, 0)], 86400⟩)) ∧
    (CacheManager.get (⟨[("k", 5, 0)], 86400⟩ : CacheState Nat) "k" 90000 =
      (none, ⟨[], 86400⟩)) ∧
    (CacheManager.get (⟨[("k", 5, 0)], 86400⟩ : CacheState Nat) "z" 10 =
      (none, ⟨[("k", 5, 0)], 86400⟩)) := by
  refine ⟨⟨by decide, ?_⟩, ?_, ?_⟩
  · exact (cacheManager_lazy_expiry (⟨[("k", 5, 0)], 86400⟩ : CacheState Nat)
      "k" 10).2.1 "k" 5 0 (by decide) (by decide)
  · have := (cacheManager_lazy_expiry (⟨[("k", 5, 0)], 86400⟩ : CacheState Nat)
      "k" 90000).2.2 "k" 5 0 (by decide) (by decide)
    simpa using this
  · exact (cacheManager_lazy_expiry (⟨[("k", 5, 0)], 86400⟩ : CacheState Nat)
      "z" 10).1 (by decide)

/-! ### CacheManager.get_cache_key (`src/utils.py`, lines 300-305)

`hashlib.md5` is modelled by a full MD5 implementation over byte lists
(RFC 1321), with 32-bit words as `Nat` reduced mod `2^32`.
`json.dumps(params, sort_keys=True)` is modelled for parameter
dictionaries with string values, as an association list serialized in
sorted order; the sort uses the lexicographic order on (key, value)
pairs, which for a dictionary (whose keys are unique) coincides with
Python's sort by key. -/

/-- Sorting order for parameter items: by key, ties by value. -/
def paramLe (p q : String × String) : Prop :=
  p.1 < q.1 ∨ (p.1 = q.1 ∧ p.2 ≤ q.2)

instance : DecidableRel paramLe := fun p q => by
  unfold paramLe
  exact inferInstance

instance : IsTotal (String × String) paramLe :=
  ⟨fun p q => by
    rcases lt_trichotomy p.1 q.1 with h | h | h
    · exact Or.inl (Or.inl h)
    · rcases le_total p.2 q.2 with h2 | h2
      · exact Or.inl (Or.inr ⟨h, h2⟩)
      · exact Or.inr (Or.inr ⟨h.symm, h2⟩)
    · exact Or.inr (Or.inl h)⟩

instance : IsTrans (String × String) paramLe :=
  ⟨fun a b c hab hbc => by
    rcases hab with h1 | ⟨e1, v1⟩ <;> rcases hbc with h2 | ⟨e2, v2⟩
    · exact Or.inl (lt_trans h1 h2)
    · exact Or.inl (lt_of_lt_of_eq h1 e2)
    · exact Or.inl (lt_of_eq_of_lt e1 h2)
    · exact Or.inr ⟨e1.trans e2, le_trans v1 v2⟩⟩

instance : IsAntisymm (String × String) paramLe :=
  ⟨fun a b hab hba => by
    rcases hab with h1 | ⟨e1, v1⟩ <;> rcases hba with h2 | ⟨e2, v2⟩
    · exact absurd (lt_trans h1 h2) (lt_irrefl _)
    · rw [e2] at h1
      exact absurd h1 (lt_irrefl _)
    · rw [e1] at h2
      exact absurd h2 (lt_irrefl _)
    · exact Prod.ext e1 (le_antisymm v1 v2)⟩

/-- The `sorted(...)` step of `json.dumps(params, sort_keys=True)`. -/
def sortParams (ps : List (String × String)) : List (String × String) :=
  List.insertionSort paramLe ps

/-- Hexadecimal digit character (lowercase). -/
def hexDigit (n : Nat) : Char :=
  if n < 10 then Char.ofNat (48 + n) else Char.ofNat (87 + n)

/-- Four hex digits of a value below `2^16`. -/
def hex4 (n : Nat) : List Char :=
  [hexDigit (n / 4096 % 16), hexDigit (n / 256 % 16), hexDigit (n / 16 % 16),
   hexDigit (n % 16)]

/-- JSON string escaping as `json.dumps` performs it (default
`ensure_ascii=True`): escape the backslash, the quote and control
characters, keep printable ASCII, and emit `\uXXXX` (with surrogate pairs
above the BMP) for non-ASCII. -/
def jsonEscapeChar (c : Char) : List Char :=
  if c = '\"' then ['\\', '\"']
  else if c = '\\' then ['\\', '\\']
  else if c = '\n' then ['\\', 'n']
  else if c = '\r' then ['\\', 'r']
  else if c = '\t' then ['\\', 't']
  else if c.toNat = 8 then ['\\', 'b']
  else if c.toNat = 12 then ['\\', 'f']
  else if c.toNat < 32 then '\\' :: 'u' :: hex4 c.toNat
  else if c.toNat < 128 then [c]
  else if c.toNat < 65536 then '\\' :: 'u' :: hex4 c.toNat
  else
    ('\\' :: 'u' :: hex4 (55296 + (c.toNat - 65536) / 1024)) ++
    ('\\' :: 'u' :: hex4 (56320 + (c.toNat - 65536) % 1024))

/-- A JSON string literal with quotes. -/
def jsonStringLit (s : String) : List Char :=
  '\"' :: (s.data.map jsonEscapeChar).flatten ++ ['\"']

/-- `json.dumps(params, sort_keys=True)` for a string-valued parameter
dictionary: `{"k1": "v1", "k2": "v2"}` with the items in sorted order. -/
def jsonDumpsSorted (ps : List (String × String)) : String :=
  ⟨Char.ofNat 123 ::
    (List.intercalate [',', ' ']
      ((sortParams ps).map fun p =>
        jsonStringLit p.1 ++ ':' :: ' ' :: jsonStringLit p.2)) ++
    [Char.ofNat 125]⟩

/-- UTF-8 bytes of a string (`str.encode()`). -/
def utf8Bytes (s : String) : List Nat :=
  s.toUTF8.toList.map (fun b => b.toNat)

/-- MD5 per-round shift amounts. -/
def md5S : List Nat :=
  [7, 12, 17, 22, 7, 12, 17, 22, 7, 12, 17, 22, 7, 12, 17, 22,
   5, 9, 14, 20, 5, 9, 14, 20, 5, 9, 14, 20, 5, 9, 14, 20,
   4, 11, 16, 23, 4, 11, 16, 23, 4, 11, 16, 23, 4, 11, 16, 23,
   6, 10, 15, 21, 6, 10, 15, 21, 6, 10, 15, 21, 6, 10, 15, 21]

/-- MD5 sine-derived constants `T[i] = floor(2^32 * |sin(i+1)|)`. -/
def md5K : List Nat :=
  [3614090360, 3905402710, 606105819, 3250441966, 4118548399, 1200080426, 2821735955, 4249261313,
   1770035416, 2336552879, 4294925233, 2304563134, 1804603682, 4254626195, 2792965006, 1236535329,
   4129170786, 3225465664, 643717713, 3921069994, 3593408605, 38016083, 3634488961, 3889429448,
   568446438, 3275163606, 4107603335, 1163531501, 2850285829, 4243563512, 1735328473, 2368359562,
   4294588738, 2272392833, 1839030562, 4259657740, 2763975236, 1272893353, 4139469664, 3200236656,
   681279174, 3936430074, 3572445317, 76029189, 3654602809, 3873151461, 530742520, 3299628645,
   4096336452, 1126891415, 2878612391, 4237533241, 1700485571, 2399980690, 4293915773, 2240044497,
   1873313359, 4264355552, 2734768916, 1309151649, 4149444226, 3174756917, 718787259, 3951481745]

/-- 32-bit rotate left of a word below `2^32`. -/
def md5rotl (x s : Nat) : Nat :=
  (x * 2 ^ s + x / 2 ^ (32 - s)) % 4294967296

/-- Round function and message index of MD5 round `i`; bitwise NOT of a
32-bit word `w` is `4294967295 - w`. -/
def md5F (i b c d : Nat) : Nat × Nat :=
  if i < 16 then ((b &&& c) ||| ((4294967295 - b) &&& d), i)
  else if i < 32 then ((d &&& b) ||| ((4294967295 - d) &&& c), (5 * i + 1) % 16)
  else if i < 48 then (b ^^^ c ^^^ d, (3 * i + 5) % 16)
  else (c ^^^ (b ||| (4294967295 - d)), (7 * i) % 16)

/-- Little-endian 32-bit words from a byte list. -/
def bytesToWords : List Nat → List Nat
  | b0 :: b1 :: b2 :: b3 :: rest =>
    (b0 + 256 * b1 + 65536 * b2 + 16777216 * b3) :: bytesToWords rest
  | _ => []

/-- Eight little-endian bytes of a value below `2^64`. -/
def leBytes8 (n : Nat) : List Nat :=
  (List.range 8).map (fun i => n / 256 ^ i % 256)

/-- MD5 padding: append `0x80`, zeros to 56 mod 64, and the bit length as
eight little-endian bytes. -/
def md5Pad (msg : List Nat) : List Nat :=
  msg ++ 128 :: List.replicate ((120 - (msg.length + 1) % 64) % 64) 0 ++
    leBytes8 (8 * msg.length % 18446744073709551616)

/-- Split a byte list into 64-byte chunks. -/
def chunksOf64 : List Nat → List (List Nat)
  | [] => []
  | b :: rest => ((b :: rest).take 64) :: chunksOf64 (rest.drop 63)
termination_by bs => bs.length
decreasing_by simp [List.length_drop]; omega

/-- One MD5 compression step on a 16-word chunk. -/
def md5ProcessChunk (state : Nat × Nat × Nat × Nat) (M : List Nat) :
    Nat × Nat × Nat × Nat :=
  let (a0, b0, c0, d0) := state
  let r := (List.range 64).foldl
    (fun (acc : Nat × Nat × Nat × Nat) i =>
      let (a, b, c, d) := acc
      let (f, g) := md5F i b c d
      let tmp := (a + f + md5K.getD i 0 + M.getD g 0) % 4294967296
      (d, (b + md5rotl tmp (md5S.getD i 0)) % 4294967296, b, c))
    (a0, b0, c0, d0)
  let (a, b, c, d) := r
  ((a0 + a) % 4294967296, (b0 + b) % 4294967296, (c0 + c) % 4294967296,
   (d0 + d) % 4294967296)

/-- `hashlib.md5(bytes).hexdigest()`: the MD5 digest of a byte list as 32
lowercase hex characters. -/
def md5Hex (bytes : List Nat) : String :=
  let (a, b, c, d) := (chunksOf64 (md5Pad bytes)).foldl
    (fun st chunk => md5ProcessChunk st (bytesToWords chunk))
    (1732584193, 4023233417, 2562383102, 271733878)
  let outBytes := ([a, b, c, d].map fun w => (List.range 4).map fun i => w / 256 ^ i % 256).flatten
  ⟨(outBytes.map fun n => [hexDigit (n / 16 % 16), hexDigit (n % 16)]).flatten⟩

/-- `CacheManager.get_cache_key` (`src/utils.py`, lines 300-305): the MD5
hex digest of `f"{api_name}:{json.dumps(params, sort_keys=True)}"`. -/
def CacheManager.get_cache_key (api_name : String) (params : List (String × String)) :
    String :=
  md5Hex (utf8Bytes (api_name ++ ":" ++ jsonDumpsSorted params))

theorem sortParams_perm_eq {l1 l2 : List (String × String)} (h : List.Perm l1 l2) :
    sortParams l1 = sortParams l2 :=
  List.eq_of_perm_of_sorted
    (((List.perm_insertionSort paramLe l1).trans h).trans
      (List.perm_insertionSort paramLe l2).symm)
    (List.sorted_insertionSort paramLe l1)
    (List.sorted_insertionSort paramLe l2)

/-- C6: the cache key is a deterministic function of the API name and the
parameter map: permuting the parameter items does not change the key, and
the key is the MD5 hex digest of the API name, `":"`, and the sorted-key
JSON serialization of the parameters. -/
theorem get_cache_key_deterministic (api : String) (ps1 ps2 : List (String × String)) :
    (List.Perm ps1 ps2 →
      CacheManager.get_cache_key api ps1 = CacheManager.get_cache_key api ps2) ∧
    CacheManager.get_cache_key api ps1 =
      md5Hex (utf8Bytes (api ++ ":" ++ jsonDumpsSorted ps1)) := by
  refine ⟨fun h => ?_, rfl⟩
  have hs : jsonDumpsSorted ps1 = jsonDumpsSorted ps2 := by
    unfold jsonDumpsSorted
    rw [sortParams_perm_eq h]
  unfold CacheManager.get_cache_key
  rw [hs]

/-- Witness for C6: two insertion orders of the same two parameters get the
same cache key. -/
theorem get_cache_key_deterministic_witness :
    List.Perm ([("b", "2"), ("a", "1")] : List (String × String)) [("a", "1"), ("b", "2")] ∧
    CacheManager.get_cache_key "semrush" [("b", "2"), ("a", "1")] =
      CacheManager.get_cache_key "semrush" [("a", "1"), ("b", "2")] :=
  ⟨by decide,
   (get_cache_key_deterministic "semrush" [("b", "2"), ("a", "1")]
      [("a", "1"), ("b", "2")]).1 (by decide)⟩

/-- C7: the validator and the cache lookup are total with no failure mode
beyond a negative result: `validate_partita_iva` always returns a Boolean
and returns `false` whenever the digit-stripped input does not have exactly
11 digits, and `CacheManager.get` always returns an `Option` value, `none`
on a missing key. -/
theorem utilities_total {α : Type} (s : String) (c : CacheState α) (key : String)
    (now : Int) :
    (validate_partita_iva s = true ∨ validate_partita_iva s = false) ∧
    ((pivaDigits s).length ≠ 11 → validate_partita_iva s = false) ∧
    ((CacheManager.get c key now).1 = none ∨
      ∃ v, (CacheManager.get c key now).1 = some v) ∧
    (c.cache.find? (fun e => e.1 == key) = none →
      CacheManager.get c key now = (none, c)) := by
  refine ⟨Bool.eq_false_or_eq_true (validate_partita_iva s), ?_, ?_,
    fun h => cache_get_miss c key now h⟩
  · intro h
    simp [validate_partita_iva, h]
  · rcases ho : (CacheManager.get c key now).1 with _ | v
    · exact Or.inl rfl
    · exact Or.inr ⟨v, rfl⟩

/-- Witness for C7: a malformed input validates to `false` and an empty
cache misses. -/
theorem utilities_total_witness :
    ((pivaDigits "abc").length ≠ 11 →
      validate_partita_iva "abc" = false) ∧
    ((⟨[], 86400⟩ : CacheState Nat).cache.find? (fun e => e.1 == "k") = none →
      CacheManager.get (⟨[], 86400⟩ : CacheState Nat) "k" 0 = (none, ⟨[], 86400⟩)) ∧
    (pivaDigits "abc").length ≠ 11 ∧
    validate_partita_iva "abc" = false :=
  ⟨(utilities_total "abc" (⟨[], 86400⟩ : CacheState Nat) "k" 0).2.1,
   (utilities_total "abc" (⟨[], 86400⟩ : CacheState Nat) "k" 0).2.2.2,
   by decide,
   (utilities_total "abc" (⟨[], 86400⟩ : CacheState Nat) "k" 0).2.1 (by decide)⟩

/-! ### AsyncHelpers.retry_async_call (`src/utils.py`, lines 524-541)

The async call is modelled by the outcome of each attempt: `f i` is what
the `i`-th invocation of `func` does (returns a value or raises).  The
`await asyncio.sleep(delay)` effects are collected in a list, in order.
The delay is an exact rational (Python doubles a float `1.0`, `2.0`, ...,
which is exact in binary floating point for these values).  When
`max_retries = 0` the loop body never runs and `raise last_exception`
raises with `last_exception = None`; the result channel is therefore
`Except (Option ε)`, `.error none` standing for that degenerate raise. -/

/-- The retry loop of `AsyncHelpers.retry_async_call`, from attempt number
`attempt`: try `f attempt`; on failure, if another attempt remains, sleep
`delay`, double it and recurse, else recurse once more only to exit the
loop and re-raise the last exception. -/
def retryGo {ε α : Type} (f : Nat → Except ε α) (max_retries : Nat) (attempt : Nat)
    (delay : ℚ) (last : Option ε) : Except (Option ε) α × List ℚ :=
  if h : attempt < max_retries then
    match f attempt with
    | .ok v => (.ok v, [])
    | .error e =>
      if attempt < max_retries - 1 then
        let r := retryGo f max_retries (attempt + 1) (delay * 2) (some e)
        (r.1, delay :: r.2)
      else
        retryGo f max_retries (attempt + 1) delay (some e)
  else (.error last, [])
termination_by max_retries - attempt

/-- `AsyncHelpers.retry_async_call(func, max_retries, delay)`: the result
(or re-raised last exception) together with the list of slept delays. -/
def retry_async_call {ε α : Type} (f : Nat → Except ε α) (max_retries : Nat)
    (delay : ℚ) : Except (Option ε) α × List ℚ :=
  retryGo f max_retries 0 delay none

theorem range_map_double (d : ℚ) (k : Nat) :
    d :: (List.range k).map (fun i => d * 2 * 2 ^ i) =
      (List.range (k + 1)).map fun i => d * 2 ^ i := by
  rw [List.range_succ_eq_map]
  simp only [List.map_cons, pow_zero, mul_one, List.map_map]
  congr 1
  apply List.map_congr_left
  intro i _
  simp only [Function.comp_apply, pow_succ]
  ring

theorem retryGo_succeeds {ε α : Type} (f : Nat → Except ε α) (n : Nat) :
    ∀ (k attempt : Nat) (d : ℚ) (last : Option ε) (v : α),
      attempt + k < n →
      (∀ i, i < k → ∃ e, f (attempt + i) = .error e) →
      f (attempt + k) = .ok v →
      retryGo f n attempt d last = (.ok v, (List.range k).map fun i => d * 2 ^ i) := by
  intro k
  induction k with
  | zero =>
    intro attempt d last v hlt hfail hok
    rw [Nat.add_zero] at hlt hok
    rw [retryGo, dif_pos hlt, hok]
    simp
  | succ k ih =>
    intro attempt d last v hlt hfail hok
    obtain ⟨e, he⟩ := hfail 0 (Nat.succ_pos k)
    rw [Nat.add_zero] at he
    rw [retryGo, dif_pos (show attempt < n by omega), he]
    dsimp only
    rw [if_pos (show attempt < n - 1 by omega)]
    have ihr := ih (attempt + 1) (d * 2) (some e) v (by omega)
      (fun i hi => by
        obtain ⟨e2, he2⟩ := hfail (i + 1) (by omega)
        exact ⟨e2, by rw [show attempt + 1 + i = attempt + (i + 1) by omega]; exact he2⟩)
      (by rw [show attempt + 1 + k = attempt + (k + 1) by omega]; exact hok)
    rw [ihr, range_map_double]

theorem retryGo_all_fail {ε α : Type} (f : Nat → Except ε α) (n : Nat) :
    ∀ (fuel attempt : Nat) (d : ℚ) (last : Option ε) (e : ε),
      attempt + fuel = n →
      0 < fuel →
      (∀ i, attempt ≤ i → i < n → ∃ e2, f i = .error e2) →
      f (n - 1) = .error e →
      retryGo f n attempt d last =
        (.error (some e), (List.range (fuel - 1)).map fun i => d * 2 ^ i) := by
  intro fuel
  induction fuel with
  | zero => omega
  | succ fuel ih =>
    intro attempt d last e hin hpos hfail hlast
    obtain ⟨e0, he0⟩ := hfail attempt le_rfl (by omega)
    rw [retryGo, dif_pos (show attempt < n by omega), he0]
    dsimp only
    rcases Nat.eq_zero_or_pos fuel with hf | hf
    · subst hf
      have hatt : attempt = n - 1 := by omega
      rw [if_neg (show ¬ attempt < n - 1 by omega)]
      rw [retryGo, dif_neg (show ¬ attempt + 1 < n by omega)]
      rw [hatt] at he0
      have he : Except.error (α := α) e = .error e0 := hlast.symm.trans he0
      simp only [Except.error.injEq] at he
      simp [he]
    · rw [if_pos (show attempt < n - 1 by omega)]
      have ihr := ih (attempt + 1) (d * 2) (some e0) e (by omega) hf
        (fun i hi1 hi2 => hfail i (by omega) hi2) hlast
      rw [ihr]
      rw [show fuel + 1 - 1 = (fuel - 1) + 1 by omega, ← range_map_double]

theorem retryGo_congr {ε α : Type} (f g : Nat → Except ε α) (n : Nat) :
    ∀ (fuel attempt : Nat) (d : ℚ) (last : Option ε),
      n - attempt ≤ fuel →
      (∀ i, attempt ≤ i → i < n → f i = g i) →
      retryGo f n attempt d last = retryGo g n attempt d last := by
  intro fuel
  induction fuel with
  | zero =>
    intro attempt d last hle _
    rw [retryGo, dif_neg (by omega), retryGo, dif_neg (by omega)]
  | succ fuel ih =>
    intro attempt d last hle hfg
    by_cases h : attempt < n
    · rw [retryGo, dif_pos h, retryGo, dif_pos h, hfg attempt le_rfl h]
      rcases hg : g attempt with e | v
      · dsimp only
        by_cases hb : attempt < n - 1
        · rw [if_pos hb, if_pos hb,
            ih (attempt + 1) (d * 2) (some e) (by omega)
              (fun i hi1 hi2 => hfg i (by omega) hi2)]
        · rw [if_neg hb, if_neg hb]
          exact ih (attempt + 1) d (some e) (by omega)
            (fun i hi1 hi2 => hfg i (by omega) hi2)
      · rfl
    · rw [retryGo, dif_neg h, retryGo, dif_neg h]

/-- C10: the retry helper returns the first successful attempt's value,
sleeping before each retry a delay that doubles from the initial one; when
every one of the `max_retries` attempts fails it re-raises the last
attempt's exception with no sleep after the final failure; and its
behavior depends only on the first `max_retries` attempts. -/
theorem retry_async_call_spec {ε α : Type} (f : Nat → Except ε α) (n : Nat) (d : ℚ) :
    (∀ k v, k < n → (∀ i, i < k → ∃ e, f i = .error e) → f k = .ok v →
      retry_async_call f n d = (.ok v, (List.range k).map fun i => d * 2 ^ i)) ∧
    (∀ e, 0 < n → (∀ i, i < n → ∃ e2, f i = .error e2) → f (n - 1) = .error e →
      retry_async_call f n d =
        (.error (some e), (List.range (n - 1)).map fun i => d * 2 ^ i)) ∧
    (∀ g : Nat → Except ε α, (∀ i, i < n → f i = g i) →
      retry_async_call f n d = retry_async_call g n d) := by
  refine ⟨?_, ?_, ?_⟩
  · intro k v hk hfail hok
    exact retryGo_succeeds f n k 0 d none v (by omega)
      (fun i hi => by simpa using hfail i hi) (by simpa using hok)
  · intro e hn hfail hlast
    exact retryGo_all_fail f n n 0 d none e (by omega) hn
      (fun i _ hi => hfail i hi) hlast
  · intro g hfg
    exact retryGo_congr f g n n 0 d none (by omega) (fun i _ hi => hfg i hi)

/-- Witness for C10: with attempts failing once and then succeeding with 42,
three allowed retries and initial delay 1, the call returns 42 after a
single sleep of 1. -/
theorem retry_async_call_spec_witness :
    (1 : Nat) < 3 ∧
    (∀ i : Nat, i < 1 →
      ∃ e, (fun j : Nat => if j = 1 then Except.ok 42 else Except.error "boom") i =
        Except.error e) ∧
    retry_async_call (fun j : Nat => if j = 1 then Except.ok 42 else Except.error "boom")
        3 1 =
      (Except.ok 42, (List.range 1).map fun i => (1 : ℚ) * 2 ^ i) := by
  refine ⟨by omega, ?_, ?_⟩
  · intro i hi
    exact ⟨"boom", by interval_cases i <;> rfl⟩
  · exact (retry_async_call_spec
      (fun j : Nat => if j = 1 then Except.ok 42 else Except.error "boom") 3 1).1 1 42
      (by omega) (fun i hi => ⟨"boom", by interval_cases i <;> rfl⟩) rfl

/-! ### BusinessAnalyzer.analyze_company (`src/app.py`, lines 573-637)

Each agent call (`await self.<agent>.<method>(...)`) is modelled by a
function returning `Except String result`: `.error` is a raised exception,
which the surrounding `try/except` turns into an `"error"` entry on the
results dict.  The SEMRush result is a payload together with the optional
`"domain"` key the orchestrator copies into `results["website"]`.  The
trace of agent invocations is returned alongside the results so that the
execution order is observable. -/

/-- One agent invocation of the orchestrator. -/
inductive AgentStep where
  | semrush
  | serper
  | social
  | financial
  | report
deriving DecidableEq, Repr

/-- The `results` dict built by `analyze_company`: the `analysis_results`
entries (one per agent, `none` until that step ran), the extracted company
name and website, the final report, and the error entry set by the
`except` handler. -/
structure AnalysisResults (α β γ δ : Type) where
  input : String
  company_name : String
  website : String
  semrush : Option α
  competitors : Option β
  social : Option γ
  financial : Option δ
  final_report : Option String
  error : Option String
deriving Repr

/-- `urlparse(url).netloc` for an `http://` or `https://` URL: the text
after the scheme up to the first `/`, `?` or `#`. -/
def netlocOf (url : String) : String :=
  let rest := if "https://".data.isPrefixOf url.data then url.data.drop 8
              else if "http://".data.isPrefixOf url.data then url.data.drop 7
              else []
  ⟨rest.takeWhile (fun c => !(c == '/' || c == '?' || c == '#'))⟩

/-- Semantics of `re.search(r'\d{11}', s)` as a Boolean (no word
boundaries, unlike the classifier's pattern). -/
def hasDigits11 (cs : List Char) : Bool :=
  (List.range (cs.length + 1)).any fun i =>
    ((cs.drop i).take 11).length == 11 && ((cs.drop i).take 11).all Char.isDigit

/-- `BusinessAnalyzer._extract_company_name` (`src/app.py`, lines 639-650). -/
def extract_company_name (user_input : String) : String :=
  if startsWithHttp user_input.data then
    (((netlocOf user_input).replace "www." "").replace ".com" "").replace ".it" ""
  else if hasDigits11 user_input.data then "Azienda da P.IVA"
  else user_input

/-- `BusinessAnalyzer._extract_partita_iva` (`src/app.py`, lines 652-655):
the leftmost run of 11 digits, or `""`. -/
def extract_partita_iva (s : String) : String :=
  match (List.range (s.data.length + 1)).find? (fun i =>
      ((s.data.drop i).take 11).length == 11 &&
      ((s.data.drop i).take 11).all Char.isDigit) with
  | some i => ⟨(s.data.drop i).take 11⟩
  | none => ""

/-- `BusinessAnalyzer.analyze_company` (`src/app.py`, lines 573-637): run
the five agents in sequence, accumulating their results; stop at the first
raised exception, recording it under `error`.  Returns the results dict
and the trace of agent invocations in order. -/
def analyze_company {α β γ δ : Type}
    (semrush_agent : String → Except String (α × Option String))
    (serper_agent : String → Except String β)
    (social_agent : String → String → Except String γ)
    (financial_agent : String → String → Except String δ)
    (report_agent : AnalysisResults α β γ δ → Except String String)
    (user_input : String) :
    AnalysisResults α β γ δ × List AgentStep :=
  let r0 : AnalysisResults α β γ δ :=
    { input := user_input, company_name := "", website := "",
      semrush := none, competitors := none, social := none, financial := none,
      final_report := none, error := none }
  match semrush_agent user_input with
  | .error e => ({ r0 with error := some e }, [.semrush])
  | .ok (sr, dom) =>
    let r1 := { r0 with semrush := some sr, website := dom.getD r0.website }
    let cname := extract_company_name user_input
    let r1b := { r1 with company_name := cname }
    match serper_agent cname with
    | .error e => ({ r1b with error := some e }, [.semrush, .serper])
    | .ok cr =>
      let r2 := { r1b with competitors := some cr }
      match social_agent cname r2.website with
      | .error e => ({ r2 with error := some e }, [.semrush, .serper, .social])
      | .ok socr =>
        let r3 := { r2 with social := some socr }
        match financial_agent (extract_partita_iva user_input) cname with
        | .error e =>
          ({ r3 with error := some e }, [.semrush, .serper, .social, .financial])
        | .ok finr =>
          let r4 := { r3 with financial := some finr }
          match report_agent r4 with
          | .error e =>
            ({ r4 with error := some e },
             [.semrush, .serper, .social, .financial, .report])
          | .ok rpt =>
            ({ r4 with final_report := some rpt },
             [.semrush, .serper, .social, .financial, .report])

/-- C8: the orchestrator invokes the five agents in the fixed order
semrush, serper, social, financial, report — every trace is a prefix of
that order, a later step runs only after all earlier ones returned — and
the report step receives the accumulated results of all four preceding
steps. -/
theorem analyze_company_sequential {α β γ δ : Type}
    (sem : String → Except String (α × Option String))
    (ser : String → Except String β)
    (soc : String → String → Except String γ)
    (fin : String → String → Except String δ)
    (rep : AnalysisResults α β γ δ → Except String String)
    (input : String) :
    (analyze_company sem ser soc fin rep input).2 <+:
      [AgentStep.semrush, .serper, .social, .financial, .report] ∧
    (∀ sr dom cr socr finr rpt,
      sem input = .ok (sr, dom) →
      ser (extract_company_name input) = .ok cr →
      soc (extract_company_name input) (dom.getD "") = .ok socr →
      fin (extract_partita_iva input) (extract_company_name input) = .ok finr →
      rep { input := input, company_name := extract_company_name input,
            website := dom.getD "", semrush := some sr, competitors := some cr,
            social := some socr, financial := some finr,
            final_report := none, error := none } = .ok rpt →
      (analyze_company sem ser soc fin rep input).2 =
        [AgentStep.semrush, .serper, .social, .financial, .report] ∧
      (analyze_company sem ser soc fin rep input).1 =
        { input := input, company_name := extract_company_name input,
          website := dom.getD "", semrush := some sr, competitors := some cr,
          social := some socr, financial := some finr,
          final_report := some rpt, error := none }) := by
  constructor
  · unfold analyze_company
    dsimp only
    split
    · exact ⟨[.serper, .social, .financial, .report], rfl⟩
    · split
      · exact ⟨[.social, .financial, .report], rfl⟩
      · split
        · exact ⟨[.financial, .report], rfl⟩
        · split
          · exact ⟨[.report], rfl⟩
          · split
            · exact ⟨[], rfl⟩
            · exact ⟨[], rfl⟩
  · intro sr dom cr socr finr rpt hsem hser hsoc hfin hrep
    constructor
    · simp [analyze_company, hsem, hser, hsoc, hfin, hrep]
    · simp [analyze_company, hsem, hser, hsoc, hfin, hrep]

/-- An always-succeeding SEMRush agent used as a concrete example. -/
def semExample : String → Except String (Nat × Option String) :=
  fun _ => .ok (1, some "acme.com")

/-- An always-succeeding competitor-search agent used as a concrete example. -/
def serExample : String → Except String Nat := fun _ => .ok 2

/-- An always-succeeding social agent used as a concrete example. -/
def socExample : String → String → Except String Nat := fun _ _ => .ok 3

/-- An always-succeeding financial agent used as a concrete example. -/
def finExample : String → String → Except String Nat := fun _ _ => .ok 4

/-- An always-succeeding report agent used as a concrete example. -/
def repExample : AnalysisResults Nat Nat Nat Nat → Except String String :=
  fun _ => .ok "rpt"

/-- Witness for C8: with five always-succeeding agents on input `"Acme"`,
the trace is the full fixed order and the report receives all four
results. -/
theorem analyze_company_sequential_witness :
    semExample "Acme" = .ok (1, some "acme.com") ∧
    ((analyze_company semExample serExample socExample finExample repExample
        "Acme").2 =
      [AgentStep.semrush, .serper, .social, .financial, .report] ∧
     (analyze_company semExample serExample socExample finExample repExample
        "Acme").1 =
      { input := "Acme", company_name := extract_company_name "Acme",
        website := (some "acme.com").getD "", semrush := some 1,
        competitors := some 2, social := some 3, financial := some 4,
        final_report := some "rpt", error := none }) :=
  ⟨rfl,
   (analyze_company_sequential semExample serExample socExample finExample
      repExample "Acme").2 1 (some "acme.com") 2 3 4 "rpt" rfl rfl rfl rfl rfl⟩
